import Mathlib

/-!
Verification of the TINY-compiler front end (scanner + recursive-descent
parser).  The definitions below are a shallow embedding of `scanner.py`
and `parser.py`: source text is a `String` (a list of characters), a token
is the pair `(lexeme, kind)` of strings exactly as the Python code builds
it, the scanner's `while` loop becomes a recursion over the remaining
characters, and the parser's mutually recursive rule methods become a
mutual recursion driven by an explicit fuel counter (the Python methods
terminate on every input; the fuel chosen by `parse` is large enough for
every run that terminates by consuming tokens).
-/

namespace TINY

/-- Tokens are pairs `(token_value, token_type)`, exactly as in `scanner.py`. -/
abbrev Token := String × String

/-- The `TOKEN_TYPES` dictionary of `scanner.py`: reserved words and
special symbols, in source order. -/
def TOKEN_TYPES : List (String × String) :=
  [("if", "IF"), ("then", "THEN"), ("end", "END"), ("repeat", "REPEAT"),
   ("until", "UNTIL"), ("read", "READ"), ("write", "WRITE"),
   (";", "SEMICOLON"), (":=", "ASSIGN"), ("<", "LESSTHAN"), ("=", "EQUAL"),
   ("+", "PLUS"), ("-", "MINUS"), ("*", "MULT"), ("/", "DIV"),
   ("(", "OPENBRACKET"), (")", "CLOSEDBRACKET")]

/-- Dictionary lookup `TOKEN_TYPES[s]`, `none` when `s` is not a key. -/
def lookupType (s : String) : Option String :=
  (TOKEN_TYPES.find? (fun p => p.1 == s)).map (fun p => p.2)

/-- Python `str.isspace()` restricted to the ASCII whitespace characters
(space, tab, newline, carriage return, vertical tab, form feed). -/
def pyIsSpace (c : Char) : Bool :=
  c.toNat == 32 || c.toNat == 9 || c.toNat == 10 ||
  c.toNat == 13 || c.toNat == 11 || c.toNat == 12

/-- The character class `[a-zA-Z]` of the identifier regex in `scanner.py`. -/
def isLetterA (c : Char) : Bool :=
  (97 ≤ c.toNat && c.toNat ≤ 122) || (65 ≤ c.toNat && c.toNat ≤ 90)

/-- The character class `\d` (ASCII digits) of the number regex. -/
def isDigitA (c : Char) : Bool :=
  48 ≤ c.toNat && c.toNat ≤ 57

/-- The character class `[a-zA-Z0-9]` of the identifier regex. -/
def isAlnum (c : Char) : Bool :=
  isLetterA c || isDigitA c

/-- Python `str.lower()` on the ASCII range (the only characters an
identifier lexeme can contain). -/
def pyLower (c : Char) : Char :=
  if 65 ≤ c.toNat ∧ c.toNat ≤ 90 then Char.ofNat (c.toNat + 32) else c

/-- The exception raised by `Scanner.scan` on an unrecognized character:
`f"Unrecognized token at position {position}: '{code[position]}'"` carries
the position and the character. -/
structure LexicalError where
  position : Nat
  character : Char
deriving DecidableEq

/-- The main loop of `Scanner.scan` (`scanner.py` lines 39-81): `cs` is the
suffix `code[position:]` of the input and `pos` the current position.  Each
iteration either skips one whitespace character, consumes a maximal
letter-led alphanumeric run (keyword or identifier), consumes a maximal
digit run (number), consumes `:=`, consumes a single special symbol, or
aborts with a `LexicalError`. -/
def scanGo : List Char → Nat → Except LexicalError (List Token)
  | [], _ => Except.ok []
  | c :: rest, pos =>
    if pyIsSpace c then
      scanGo rest (pos + 1)
    else if isLetterA c then
      let tl := rest.takeWhile isAlnum
      let value := String.mk (c :: tl)
      let ttype :=
        match lookupType (String.mk ((c :: tl).map pyLower)) with
        | some t => t
        | none => "IDENTIFIER"
      (scanGo (rest.dropWhile isAlnum) (pos + (1 + tl.length))).map
        (fun ts => (value, ttype) :: ts)
    else if isDigitA c then
      let tl := rest.takeWhile isDigitA
      (scanGo (rest.dropWhile isDigitA) (pos + (1 + tl.length))).map
        (fun ts => (String.mk (c :: tl), "NUMBER") :: ts)
    else if c = ':' ∧ rest.head? = some '=' then
      (scanGo rest.tail (pos + 2)).map
        (fun ts => ((":=", "ASSIGN") : Token) :: ts)
    else
      match lookupType (String.mk [c]) with
      | some t => (scanGo rest (pos + 1)).map (fun ts => (String.mk [c], t) :: ts)
      | none => Except.error ⟨pos, c⟩
termination_by cs _ => cs.length
decreasing_by
  · simp
  · simp only [List.length_cons]
    exact Nat.lt_succ_of_le ((List.dropWhile_sublist isAlnum).length_le)
  · simp only [List.length_cons]
    exact Nat.lt_succ_of_le ((List.dropWhile_sublist isDigitA).length_le)
  · simp only [List.length_cons, List.length_tail]
    omega
  · simp

/-- The entry point `Scanner.scan(code)`: run the loop from position 0. -/
def scan (code : String) : Except LexicalError (List Token) :=
  scanGo code.data 0

/-- An instrumented copy of `scanGo` that spends one unit of fuel per loop
iteration and answers `none` when the fuel runs out while input remains.
It witnesses that the scan loop executes at most one iteration per input
character. -/
def scanGoFuel : Nat → List Char → Nat → Option (Except LexicalError (List Token))
  | _, [], _ => some (Except.ok [])
  | 0, _ :: _, _ => none
  | fuel + 1, c :: rest, pos =>
    if pyIsSpace c then
      scanGoFuel fuel rest (pos + 1)
    else if isLetterA c then
      let tl := rest.takeWhile isAlnum
      let value := String.mk (c :: tl)
      let ttype :=
        match lookupType (String.mk ((c :: tl).map pyLower)) with
        | some t => t
        | none => "IDENTIFIER"
      (scanGoFuel fuel (rest.dropWhile isAlnum) (pos + (1 + tl.length))).map
        (fun r => r.map (fun ts => (value, ttype) :: ts))
    else if isDigitA c then
      let tl := rest.takeWhile isDigitA
      (scanGoFuel fuel (rest.dropWhile isDigitA) (pos + (1 + tl.length))).map
        (fun r => r.map (fun ts => (String.mk (c :: tl), "NUMBER") :: ts))
    else if c = ':' ∧ rest.head? = some '=' then
      (scanGoFuel fuel rest.tail (pos + 2)).map
        (fun r => r.map (fun ts => ((":=", "ASSIGN") : Token) :: ts))
    else
      match lookupType (String.mk [c]) with
      | some t =>
        (scanGoFuel fuel rest (pos + 1)).map
          (fun r => r.map (fun ts => (String.mk [c], t) :: ts))
      | none => some (Except.error ⟨pos, c⟩)

/-- Fuel equal to the number of remaining characters always suffices: the
instrumented loop finishes (is not `none`) and agrees with `scanGo`. -/
theorem scanGoFuel_correct :
    ∀ (cs : List Char) (pos : Nat), ∀ fuel, cs.length ≤ fuel →
      scanGoFuel fuel cs pos = some (scanGo cs pos) := by
  intro cs pos
  induction cs, pos using scanGo.induct with
  | case1 pos =>
    intro fuel _
    cases fuel <;> simp [scanGoFuel, scanGo]
  | case2 c rest pos hsp ih =>
    intro fuel hf
    match fuel, hf with
    | f + 1, hf =>
      simp only [List.length_cons] at hf
      simp only [scanGoFuel, scanGo]
      rw [ih f (by omega)]
      simp [hsp]
  | case3 c rest pos hsp hl tl ih =>
    intro fuel hf
    match fuel, hf with
    | f + 1, hf =>
      simp only [List.length_cons] at hf
      simp only [scanGoFuel, scanGo]
      rw [ih f (le_trans (List.dropWhile_sublist isAlnum).length_le (by omega))]
      simp [hsp, hl]
  | case4 c rest pos hsp hl hd tl ih =>
    intro fuel hf
    match fuel, hf with
    | f + 1, hf =>
      simp only [List.length_cons] at hf
      simp only [scanGoFuel, scanGo]
      rw [ih f (le_trans (List.dropWhile_sublist isDigitA).length_le (by omega))]
      simp [hsp, hl, hd]
  | case5 c rest pos hsp hl hd ha ih =>
    intro fuel hf
    match fuel, hf with
    | f + 1, hf =>
      simp only [List.length_cons] at hf
      simp only [scanGoFuel, scanGo]
      rw [ih f (by simp only [List.length_tail]; omega)]
      simp +decide [hsp, hl, hd, ha]
  | case6 c rest pos hsp hl hd ha t hlook ih =>
    intro fuel hf
    match fuel, hf with
    | f + 1, hf =>
      simp only [List.length_cons] at hf
      simp only [scanGoFuel, scanGo]
      rw [ih f (by omega)]
      simp [hsp, hl, hd, ha, hlook]
  | case7 c rest pos hsp hl hd ha hlook =>
    intro fuel hf
    match fuel, hf with
    | f + 1, hf =>
      simp only [scanGoFuel, scanGo]
      simp [hsp, hl, hd, ha, hlook]

/-- Evaluation helper: a concrete run of the fueled scanner determines the
value of `scan`. -/
theorem scan_eval (code : String) (r : Except LexicalError (List Token))
    (h : scanGoFuel code.data.length code.data 0 = some r) : scan code = r := by
  have h2 := scanGoFuel_correct code.data 0 code.data.length le_rfl
  rw [h] at h2
  exact (Option.some.inj h2).symm

/-- The syntax-tree dictionaries built by `parser.py`, one constructor per
`type` tag.  The two shapes a `factor` dictionary's `value` field can take
(a nested expression dictionary, or a token) get one constructor each. -/
inductive Ast where
  | program (body : Ast)
  | stmt_sequence (statements : List Ast)
  | if_stmt (condition : Ast) (body : Ast)
  | repeat_stmt (body : Ast) (condition : Ast)
  | assign_stmt (identifier : Token) (value : Ast)
  | read_stmt (identifier : Token)
  | write_stmt (value : Ast)
  | exp (left : Ast) (op : Token) (right : Ast)
  | simple_exp (left : Ast) (op : Token) (right : Ast)
  | term (left : Ast) (op : Token) (right : Ast)
  | factor_paren (value : Ast)
  | factor_tok (value : Token)

/-- The `Parser.match` primitive (`parser.py` lines 51-70), renamed because
`match` is reserved in Lean: past-the-end fails with "Unexpected end of
input", a kind mismatch fails naming both kinds, otherwise the token is
consumed and returned together with the advanced cursor. -/
def pmatch (tokens : List Token) (i : Nat) (expected : String) :
    Except String (Token × Nat) :=
  match tokens[i]? with
  | none => Except.error "Unexpected end of input"
  | some (v, t) =>
    if t ≠ expected then
      Except.error ("Expected " ++ expected ++ ", but found " ++ t)
    else
      Except.ok ((v, t), i + 1)

/-! ### Parser rule functions

The grammar-rule methods of `parser.py`, one Lean function per method,
with the instance fields `tokens` / `current_token_index` passed explicitly
(`current_token` is `tokens[i]?`) and the two `while` loops turned into the
auxiliary recursions `stmt_seq_loop`, `simple_exp_loop` and `term_loop`
carrying the Python loop's accumulator.  The mutual recursion is driven by
a fuel counter decremented at every call; `parse` passes fuel that is never
exhausted on terminating runs (each nesting level consumes a token). -/
mutual

def program (tokens : List Token) (i : Nat) (fuel : Nat) :
    Except String (Ast × Nat) :=
  match fuel with
  | 0 => Except.error "out of fuel"
  | fuel + 1 =>
    (stmt_sequence tokens i fuel).map (fun r => (Ast.program r.1, r.2))

def stmt_sequence (tokens : List Token) (i : Nat) (fuel : Nat) :
    Except String (Ast × Nat) :=
  match fuel with
  | 0 => Except.error "out of fuel"
  | fuel + 1 => do
    let (s, i1) ← statement tokens i fuel
    stmt_seq_loop tokens i1 [s] fuel
termination_by structural fuel

def stmt_seq_loop (tokens : List Token) (i : Nat) (acc : List Ast) (fuel : Nat) :
    Except String (Ast × Nat) :=
  match fuel with
  | 0 => Except.error "out of fuel"
  | fuel + 1 =>
    match tokens[i]? with
    | some (_, t) =>
      if t = "SEMICOLON" then do
        let (_, i1) ← pmatch tokens i "SEMICOLON"
        match tokens[i1]? with
        | some (_, t2) =>
          if t2 ≠ "END" ∧ t2 ≠ "UNTIL" then do
            let (s, i2) ← statement tokens i1 fuel
            stmt_seq_loop tokens i2 (acc ++ [s]) fuel
          else
            Except.ok (Ast.stmt_sequence acc, i1)
        | none => Except.ok (Ast.stmt_sequence acc, i1)
      else
        Except.ok (Ast.stmt_sequence acc, i)
    | none => Except.ok (Ast.stmt_sequence acc, i)
termination_by structural fuel

def statement (tokens : List Token) (i : Nat) (fuel : Nat) :
    Except String (Ast × Nat) :=
  match fuel with
  | 0 => Except.error "out of fuel"
  | fuel + 1 =>
    match tokens[i]? with
    | none => Except.error "Unexpected end of input"
    | some (v, t) =>
      if t = "IF" then if_stmt tokens i fuel
      else if t = "REPEAT" then repeat_stmt tokens i fuel
      else if t = "READ" then read_stmt tokens i fuel
      else if t = "WRITE" then write_stmt tokens i fuel
      else if t = "IDENTIFIER" then assign_stmt tokens i fuel
      else Except.error ("Unexpected token: " ++ v ++ ", " ++ t)
termination_by structural fuel

def if_stmt (tokens : List Token) (i : Nat) (fuel : Nat) :
    Except String (Ast × Nat) :=
  match fuel with
  | 0 => Except.error "out of fuel"
  | fuel + 1 => do
    let (_, i1) ← pmatch tokens i "IF"
    let (condition, i2) ← exp tokens i1 fuel
    let (_, i3) ← pmatch tokens i2 "THEN"
    let (body, i4) ← stmt_sequence tokens i3 fuel
    let (_, i5) ← pmatch tokens i4 "END"
    Except.ok (Ast.if_stmt condition body, i5)
termination_by structural fuel

def repeat_stmt (tokens : List Token) (i : Nat) (fuel : Nat) :
    Except String (Ast × Nat) :=
  match fuel with
  | 0 => Except.error "out of fuel"
  | fuel + 1 => do
    let (_, i1) ← pmatch tokens i "REPEAT"
    let (body, i2) ← stmt_sequence tokens i1 fuel
    let (_, i3) ← pmatch tokens i2 "UNTIL"
    let (condition, i4) ← exp tokens i3 fuel
    Except.ok (Ast.repeat_stmt body condition, i4)
termination_by structural fuel

def assign_stmt (tokens : List Token) (i : Nat) (fuel : Nat) :
    Except String (Ast × Nat) :=
  match fuel with
  | 0 => Except.error "out of fuel"
  | fuel + 1 => do
    let (identifier, i1) ← pmatch tokens i "IDENTIFIER"
    let (_, i2) ← pmatch tokens i1 "ASSIGN"
    let (value, i3) ← exp tokens i2 fuel
    Except.ok (Ast.assign_stmt identifier value, i3)

def read_stmt (tokens : List Token) (i : Nat) (fuel : Nat) :
    Except String (Ast × Nat) :=
  match fuel with
  | 0 => Except.error "out of fuel"
  | _fuel + 1 => do
    let (_, i1) ← pmatch tokens i "READ"
    let (identifier, i2) ← pmatch tokens i1 "IDENTIFIER"
    Except.ok (Ast.read_stmt identifier, i2)

def write_stmt (tokens : List Token) (i : Nat) (fuel : Nat) :
    Except String (Ast × Nat) :=
  match fuel with
  | 0 => Except.error "out of fuel"
  | fuel + 1 => do
    let (_, i1) ← pmatch tokens i "WRITE"
    let (value, i2) ← exp tokens i1 fuel
    Except.ok (Ast.write_stmt value, i2)

def exp (tokens : List Token) (i : Nat) (fuel : Nat) :
    Except String (Ast × Nat) :=
  match fuel with
  | 0 => Except.error "out of fuel"
  | fuel + 1 => do
    let (left, i1) ← simple_exp tokens i fuel
    match tokens[i1]? with
    | some (v, t) =>
      if t = "LESSTHAN" ∨ t = "EQUAL" then do
        let (_, i2) ←
          if t = "LESSTHAN" then pmatch tokens i1 "LESSTHAN"
          else pmatch tokens i1 "EQUAL"
        let (right, i3) ← simple_exp tokens i2 fuel
        Except.ok (Ast.exp left (v, t) right, i3)
      else
        Except.ok (left, i1)
    | none => Except.ok (left, i1)
termination_by structural fuel

def simple_exp (tokens : List Token) (i : Nat) (fuel : Nat) :
    Except String (Ast × Nat) :=
  match fuel with
  | 0 => Except.error "out of fuel"
  | fuel + 1 => do
    let (left, i1) ← term tokens i fuel
    simple_exp_loop tokens i1 left fuel
termination_by structural fuel

def simple_exp_loop (tokens : List Token) (i : Nat) (left : Ast) (fuel : Nat) :
    Except String (Ast × Nat) :=
  match fuel with
  | 0 => Except.error "out of fuel"
  | fuel + 1 =>
    match tokens[i]? with
    | some (v, t) =>
      if t = "PLUS" ∨ t = "MINUS" then do
        let (_, i1) ←
          if t = "PLUS" then pmatch tokens i "PLUS"
          else pmatch tokens i "MINUS"
        let (right, i2) ← term tokens i1 fuel
        simple_exp_loop tokens i2 (Ast.simple_exp left (v, t) right) fuel
      else
        Except.ok (left, i)
    | none => Except.ok (left, i)
termination_by structural fuel

def term (tokens : List Token) (i : Nat) (fuel : Nat) :
    Except String (Ast × Nat) :=
  match fuel with
  | 0 => Except.error "out of fuel"
  | fuel + 1 => do
    let (left, i1) ← factor tokens i fuel
    term_loop tokens i1 left fuel
termination_by structural fuel

def term_loop (tokens : List Token) (i : Nat) (left : Ast) (fuel : Nat) :
    Except String (Ast × Nat) :=
  match fuel with
  | 0 => Except.error "out of fuel"
  | fuel + 1 =>
    match tokens[i]? with
    | some (v, t) =>
      if t = "MULT" ∨ t = "DIV" then do
        let (_, i1) ←
          if t = "MULT" then pmatch tokens i "MULT"
          else pmatch tokens i "DIV"
        let (right, i2) ← factor tokens i1 fuel
        term_loop tokens i2 (Ast.term left (v, t) right) fuel
      else
        Except.ok (left, i)
    | none => Except.ok (left, i)
termination_by structural fuel

def factor (tokens : List Token) (i : Nat) (fuel : Nat) :
    Except String (Ast × Nat) :=
  match fuel with
  | 0 => Except.error "out of fuel"
  | fuel + 1 =>
    match tokens[i]? with
    | none => Except.error "Unexpected end of input"
    | some (v, t) =>
      if t = "OPENBRACKET" then do
        let (_, i1) ← pmatch tokens i "OPENBRACKET"
        let (e, i2) ← exp tokens i1 fuel
        let (_, i3) ← pmatch tokens i2 "CLOSEDBRACKET"
        Except.ok (Ast.factor_paren e, i3)
      else if t = "NUMBER" then do
        let (tok, i1) ← pmatch tokens i "NUMBER"
        Except.ok (Ast.factor_tok tok, i1)
      else if t = "IDENTIFIER" then do
        let (tok, i1) ← pmatch tokens i "IDENTIFIER"
        Except.ok (Ast.factor_tok tok, i1)
      else
        Except.error ("Unexpected token: " ++ v ++ ", " ++ t)

termination_by structural fuel
end

/-- The apostrophe character, used by Python `repr` of a string. -/
def quoteChar : Char := Char.ofNat 39

/-- Python `repr` of a token tuple `(value, type)` as interpolated by the
f-string in `Parser.parse`, e.g. the token for `end` prints as
`('end', 'END')`. -/
def tokenRepr (t : Token) : String :=
  String.mk ('(' :: quoteChar :: (t.1.data ++ [quoteChar, ',', ' ', quoteChar]
    ++ t.2.data ++ [quoteChar, ')']))

/-- The fuel budget `parse` hands to `program`; generous enough that a run
that keeps consuming tokens never exhausts it. -/
def parseFuel (tokens : List Token) : Nat :=
  8 * tokens.length + 8

/-- The entry point `Parser.parse` (`parser.py` lines 30-49): run `program`
from cursor 0; if it returns with the cursor short of the end of the token
list, fail with "Unexpected token:" naming the first unconsumed token.
Success `(True, tree)` is `Except.ok`, failure `(False, message)` is
`Except.error`. -/
def parse (tokens : List Token) : Except String Ast :=
  match program tokens 0 (parseFuel tokens) with
  | Except.error e => Except.error e
  | Except.ok (ast, j) =>
    if h : j < tokens.length then
      Except.error ("Unexpected token: " ++ tokenRepr tokens[j])
    else
      Except.ok ast

/-- Reduction of the `Except` monad bind on a success value. -/
theorem ok_bind {α β : Type} (x : α) (f : α → Except String β) :
    (Except.ok x : Except String α) >>= f = f x := rfl
/-- Reduction of the `Except` monad bind on an error value. -/
theorem error_bind {α β : Type} (e : String) (f : α → Except String β) :
    (Except.error e : Except String α) >>= f = Except.error e := rfl

/-- A successful `pmatch` leaves the cursor inside (or at the end of) the
token list: it checked a token existed at `i` and moved to `i + 1`. -/
theorem pmatch_le {tokens : List Token} {i : Nat} {e : String} {tok : Token}
    {j : Nat} (h : pmatch tokens i e = Except.ok (tok, j)) : j ≤ tokens.length := by
  unfold pmatch at h
  cases hx : tokens[i]? with
  | none => rw [hx] at h; cases h
  | some p =>
    obtain ⟨v, t⟩ := p
    rw [hx] at h
    by_cases ht : t = e
    · simp [ht] at h
      have : i < tokens.length := by
        have := List.getElem?_eq_some.mp hx
        exact this.1
      omega
    · simp [ht] at h

/-- Successful bind decomposition: a bound computation succeeds exactly
when both stages succeed. -/
theorem bind_ok_iff {α β : Type} (m : Except String α) (f : α → Except String β)
    (b : β) : (m >>= f = Except.ok b) ↔ ∃ a, m = Except.ok a ∧ f a = Except.ok b := by
  cases m <;> simp [ok_bind, error_bind]

/-- Variant of `bind_ok_iff` for an exposed `Except.bind`. -/
theorem bindE_ok_iff {α β : Type} (m : Except String α) (f : α → Except String β)
    (b : β) : (Except.bind m f = Except.ok b) ↔ ∃ a, m = Except.ok a ∧ f a = Except.ok b := by
  cases m <;> simp [Except.bind]

/-- The parser's cursor never moves past the end of the token list: every
rule function that returns successfully returns a cursor `≤ tokens.length`
(the loop functions additionally assume their entry cursor is in range,
which their callers establish). -/
theorem cursor_le : ∀ fuel : Nat,
    (∀ tokens i a j, program tokens i fuel = Except.ok (a, j) → j ≤ tokens.length) ∧
    (∀ tokens i a j, stmt_sequence tokens i fuel = Except.ok (a, j) → j ≤ tokens.length) ∧
    (∀ tokens i acc a j, i ≤ tokens.length →
      stmt_seq_loop tokens i acc fuel = Except.ok (a, j) → j ≤ tokens.length) ∧
    (∀ tokens i a j, statement tokens i fuel = Except.ok (a, j) → j ≤ tokens.length) ∧
    (∀ tokens i a j, if_stmt tokens i fuel = Except.ok (a, j) → j ≤ tokens.length) ∧
    (∀ tokens i a j, repeat_stmt tokens i fuel = Except.ok (a, j) → j ≤ tokens.length) ∧
    (∀ tokens i a j, assign_stmt tokens i fuel = Except.ok (a, j) → j ≤ tokens.length) ∧
    (∀ tokens i a j, read_stmt tokens i fuel = Except.ok (a, j) → j ≤ tokens.length) ∧
    (∀ tokens i a j, write_stmt tokens i fuel = Except.ok (a, j) → j ≤ tokens.length) ∧
    (∀ tokens i a j, exp tokens i fuel = Except.ok (a, j) → j ≤ tokens.length) ∧
    (∀ tokens i a j, simple_exp tokens i fuel = Except.ok (a, j) → j ≤ tokens.length) ∧
    (∀ tokens i left a j, i ≤ tokens.length →
      simple_exp_loop tokens i left fuel = Except.ok (a, j) → j ≤ tokens.length) ∧
    (∀ tokens i a j, term tokens i fuel = Except.ok (a, j) → j ≤ tokens.length) ∧
    (∀ tokens i left a j, i ≤ tokens.length →
      term_loop tokens i left fuel = Except.ok (a, j) → j ≤ tokens.length) ∧
    (∀ tokens i a j, factor tokens i fuel = Except.ok (a, j) → j ≤ tokens.length) := by
  intro fuel
  induction fuel with
  | zero =>
    refine ⟨?_, ?_, ?_, ?_, ?_, ?_, ?_, ?_, ?_, ?_, ?_, ?_, ?_, ?_, ?_⟩ <;>
      (intros; simp_all [program, stmt_sequence, stmt_seq_loop, statement, if_stmt,
        repeat_stmt, assign_stmt, read_stmt, write_stmt, exp, simple_exp,
        simple_exp_loop, term, term_loop, factor])
  | succ f ih =>
    obtain ⟨ihp, ihss, ihsl, ihst, ihif, ihrep, ihas, ihrd, ihwr, ihex, ihse,
      ihsel, ihtm, ihtml, ihfa⟩ := ih
    refine ⟨?_, ?_, ?_, ?_, ?_, ?_, ?_, ?_, ?_, ?_, ?_, ?_, ?_, ?_, ?_⟩
    · -- program
      intro tokens i a j h
      simp only [program] at h
      cases hx : stmt_sequence tokens i f with
      | error e => rw [hx] at h; cases h
      | ok p =>
        obtain ⟨b, j2⟩ := p
        rw [hx] at h
        try dsimp only at h
        simp only [Except.map, Except.ok.injEq, Prod.mk.injEq] at h
        obtain ⟨-, rfl⟩ := h
        exact ihss tokens i b j2 hx
    · -- stmt_sequence
      intro tokens i a j h
      simp only [stmt_sequence, bind_ok_iff] at h
      obtain ⟨⟨s, i1⟩, h1, h⟩ := h
      exact ihsl tokens i1 [s] a j (ihst tokens i s i1 h1) h
    · -- stmt_seq_loop
      intro tokens i acc a j hi h
      simp only [stmt_seq_loop] at h
      cases hx : tokens[i]? with
      | none =>
        rw [hx] at h
        try dsimp only at h
        simp only [Except.ok.injEq, Prod.mk.injEq] at h
        obtain ⟨-, rfl⟩ := h
        exact hi
      | some p =>
        obtain ⟨v, t⟩ := p
        rw [hx] at h
        try dsimp only at h
        by_cases ht : t = "SEMICOLON"
        · rw [if_pos ht] at h
          simp only [bind_ok_iff, bindE_ok_iff] at h
          obtain ⟨⟨tk, i1⟩, h1, h⟩ := h
          have hi1 : i1 ≤ tokens.length := pmatch_le h1
          cases hx2 : tokens[i1]? with
          | none =>
            rw [hx2] at h
            try dsimp only at h
            simp only [Except.ok.injEq, Prod.mk.injEq] at h
            obtain ⟨-, rfl⟩ := h
            exact hi1
          | some q =>
            obtain ⟨v2, t2⟩ := q
            rw [hx2] at h
            try dsimp only at h
            by_cases h2 : t2 ≠ "END" ∧ t2 ≠ "UNTIL"
            · rw [if_pos h2] at h
              simp only [bind_ok_iff, bindE_ok_iff] at h
              obtain ⟨⟨s, i2⟩, hs, h⟩ := h
              exact ihsl tokens i2 (acc ++ [s]) a j (ihst tokens i1 s i2 hs) h
            · rw [if_neg h2] at h
              simp only [Except.ok.injEq, Prod.mk.injEq] at h
              obtain ⟨-, rfl⟩ := h
              exact hi1
        · rw [if_neg ht] at h
          simp only [Except.ok.injEq, Prod.mk.injEq] at h
          obtain ⟨-, rfl⟩ := h
          exact hi
    · -- statement
      intro tokens i a j h
      simp only [statement] at h
      cases hx : tokens[i]? with
      | none => rw [hx] at h; cases h
      | some p =>
        obtain ⟨v, t⟩ := p
        rw [hx] at h
        try dsimp only at h
        by_cases h1 : t = "IF"
        · rw [if_pos h1] at h; exact ihif tokens i a j h
        · rw [if_neg h1] at h
          by_cases h2 : t = "REPEAT"
          · rw [if_pos h2] at h; exact ihrep tokens i a j h
          · rw [if_neg h2] at h
            by_cases h3 : t = "READ"
            · rw [if_pos h3] at h; exact ihrd tokens i a j h
            · rw [if_neg h3] at h
              by_cases h4 : t = "WRITE"
              · rw [if_pos h4] at h; exact ihwr tokens i a j h
              · rw [if_neg h4] at h
                by_cases h5 : t = "IDENTIFIER"
                · rw [if_pos h5] at h; exact ihas tokens i a j h
                · rw [if_neg h5] at h; cases h
    · -- if_stmt
      intro tokens i a j h
      simp only [if_stmt, bind_ok_iff] at h
      obtain ⟨⟨t1, i1⟩, h1, ⟨c2, i2⟩, h2, ⟨t3, i3⟩, h3, ⟨b4, i4⟩, h4, ⟨t5, i5⟩, h5, hfin⟩ := h
      simp only [Except.ok.injEq, Prod.mk.injEq] at hfin
      obtain ⟨-, rfl⟩ := hfin
      exact pmatch_le h5
    · -- repeat_stmt
      intro tokens i a j h
      simp only [repeat_stmt, bind_ok_iff] at h
      obtain ⟨⟨t1, i1⟩, h1, ⟨b2, i2⟩, h2, ⟨t3, i3⟩, h3, ⟨c4, i4⟩, h4, hfin⟩ := h
      simp only [Except.ok.injEq, Prod.mk.injEq] at hfin
      obtain ⟨-, rfl⟩ := hfin
      exact ihex tokens i3 c4 i4 h4
    · -- assign_stmt
      intro tokens i a j h
      simp only [assign_stmt, bind_ok_iff] at h
      obtain ⟨⟨t1, i1⟩, h1, ⟨t2, i2⟩, h2, ⟨v3, i3⟩, h3, hfin⟩ := h
      simp only [Except.ok.injEq, Prod.mk.injEq] at hfin
      obtain ⟨-, rfl⟩ := hfin
      exact ihex tokens i2 v3 i3 h3
    · -- read_stmt
      intro tokens i a j h
      simp only [read_stmt, bind_ok_iff] at h
      obtain ⟨⟨t1, i1⟩, h1, ⟨t2, i2⟩, h2, hfin⟩ := h
      simp only [Except.ok.injEq, Prod.mk.injEq] at hfin
      obtain ⟨-, rfl⟩ := hfin
      exact pmatch_le h2
    · -- write_stmt
      intro tokens i a j h
      simp only [write_stmt, bind_ok_iff] at h
      obtain ⟨⟨t1, i1⟩, h1, ⟨v2, i2⟩, h2, hfin⟩ := h
      simp only [Except.ok.injEq, Prod.mk.injEq] at hfin
      obtain ⟨-, rfl⟩ := hfin
      exact ihex tokens i1 v2 i2 h2
    · -- exp
      intro tokens i a j h
      simp only [exp, bind_ok_iff] at h
      obtain ⟨⟨left, i1⟩, h1, h⟩ := h
      have hi1 : i1 ≤ tokens.length := ihse tokens i left i1 h1
      cases hx : tokens[i1]? with
      | none =>
        rw [hx] at h
        try dsimp only at h
        simp only [Except.ok.injEq, Prod.mk.injEq] at h
        obtain ⟨-, rfl⟩ := h
        exact hi1
      | some p =>
        obtain ⟨v, t⟩ := p
        rw [hx] at h
        try dsimp only at h
        by_cases ht : t = "LESSTHAN" ∨ t = "EQUAL"
        · rw [if_pos ht] at h
          by_cases ht2 : t = "LESSTHAN" <;>
            [rw [if_pos ht2] at h; rw [if_neg ht2] at h] <;>
          · simp only [bind_ok_iff, bindE_ok_iff] at h
            obtain ⟨⟨t2, i2⟩, h2, ⟨r3, i3⟩, h3, hfin⟩ := h
            simp only [Except.ok.injEq, Prod.mk.injEq] at hfin
            obtain ⟨-, rfl⟩ := hfin
            exact ihse tokens i2 r3 i3 h3
        · rw [if_neg ht] at h
          simp only [Except.ok.injEq, Prod.mk.injEq] at h
          obtain ⟨-, rfl⟩ := h
          exact hi1
    · -- simple_exp
      intro tokens i a j h
      simp only [simple_exp, bind_ok_iff] at h
      obtain ⟨⟨left, i1⟩, h1, h⟩ := h
      exact ihsel tokens i1 left a j (ihtm tokens i left i1 h1) h
    · -- simple_exp_loop
      intro tokens i left a j hi h
      simp only [simple_exp_loop] at h
      cases hx : tokens[i]? with
      | none =>
        rw [hx] at h
        try dsimp only at h
        simp only [Except.ok.injEq, Prod.mk.injEq] at h
        obtain ⟨-, rfl⟩ := h
        exact hi
      | some p =>
        obtain ⟨v, t⟩ := p
        rw [hx] at h
        try dsimp only at h
        by_cases ht : t = "PLUS" ∨ t = "MINUS"
        · rw [if_pos ht] at h
          by_cases ht2 : t = "PLUS" <;>
            [rw [if_pos ht2] at h; rw [if_neg ht2] at h] <;>
          · simp only [bind_ok_iff, bindE_ok_iff] at h
            obtain ⟨⟨t1, i1⟩, h1, ⟨r2, i2⟩, h2, h⟩ := h
            exact ihsel tokens i2 _ a j (ihtm tokens i1 r2 i2 h2) h
        · rw [if_neg ht] at h
          simp only [Except.ok.injEq, Prod.mk.injEq] at h
          obtain ⟨-, rfl⟩ := h
          exact hi
    · -- term
      intro tokens i a j h
      simp only [term, bind_ok_iff] at h
      obtain ⟨⟨left, i1⟩, h1, h⟩ := h
      exact ihtml tokens i1 left a j (ihfa tokens i left i1 h1) h
    · -- term_loop
      intro tokens i left a j hi h
      simp only [term_loop] at h
      cases hx : tokens[i]? with
      | none =>
        rw [hx] at h
        try dsimp only at h
        simp only [Except.ok.injEq, Prod.mk.injEq] at h
        obtain ⟨-, rfl⟩ := h
        exact hi
      | some p =>
        obtain ⟨v, t⟩ := p
        rw [hx] at h
        try dsimp only at h
        by_cases ht : t = "MULT" ∨ t = "DIV"
        · rw [if_pos ht] at h
          by_cases ht2 : t = "MULT" <;>
            [rw [if_pos ht2] at h; rw [if_neg ht2] at h] <;>
          · simp only [bind_ok_iff, bindE_ok_iff] at h
            obtain ⟨⟨t1, i1⟩, h1, ⟨r2, i2⟩, h2, h⟩ := h
            exact ihtml tokens i2 _ a j (ihfa tokens i1 r2 i2 h2) h
        · rw [if_neg ht] at h
          simp only [Except.ok.injEq, Prod.mk.injEq] at h
          obtain ⟨-, rfl⟩ := h
          exact hi
    · -- factor
      intro tokens i a j h
      simp only [factor] at h
      cases hx : tokens[i]? with
      | none => rw [hx] at h; cases h
      | some p =>
        obtain ⟨v, t⟩ := p
        rw [hx] at h
        try dsimp only at h
        by_cases h1 : t = "OPENBRACKET"
        · rw [if_pos h1] at h
          simp only [bind_ok_iff, bindE_ok_iff] at h
          obtain ⟨⟨t1, i1⟩, hq1, ⟨e2, i2⟩, hq2, ⟨t3, i3⟩, hq3, hfin⟩ := h
          simp only [Except.ok.injEq, Prod.mk.injEq] at hfin
          obtain ⟨-, rfl⟩ := hfin
          exact pmatch_le hq3
        · rw [if_neg h1] at h
          by_cases h2 : t = "NUMBER"
          · rw [if_pos h2] at h
            simp only [bind_ok_iff, bindE_ok_iff] at h
            obtain ⟨⟨t1, i1⟩, hq1, hfin⟩ := h
            simp only [Except.ok.injEq, Prod.mk.injEq] at hfin
            obtain ⟨-, rfl⟩ := hfin
            exact pmatch_le hq1
          · rw [if_neg h2] at h
            by_cases h3 : t = "IDENTIFIER"
            · rw [if_pos h3] at h
              simp only [bind_ok_iff, bindE_ok_iff] at h
              obtain ⟨⟨t1, i1⟩, hq1, hfin⟩ := h
              simp only [Except.ok.injEq, Prod.mk.injEq] at hfin
              obtain ⟨-, rfl⟩ := hfin
              exact pmatch_le hq1
            · rw [if_neg h3] at h; cases h


/-! ### Claim theorems -/

/-- C1 counterexample: the claim asserts that parsing the tokens of
`"read x;"` fails with "unexpected end of input"; in fact the parse call
succeeds, so the claim is false. -/
theorem claim1_counterexample :
    scan "read x;" =
      Except.ok [("read", "READ"), ("x", "IDENTIFIER"), (";", "SEMICOLON")] ∧
    (parse [("read", "READ"), ("x", "IDENTIFIER"), (";", "SEMICOLON")]).isOk = true :=
  ⟨scan_eval _ _ rfl, rfl⟩

/-- C1 amended: for the tokens of `"read x;"` (a complete statement
followed by a semicolon at end-of-input) `parse` succeeds: after
`stmt_sequence` consumes the trailing semicolon the current token is gone,
the loop's `current_token and ...` test is falsy and the loop breaks
without attempting another statement, so the trailing semicolon is
accepted just as before `END`/`UNTIL`. -/
theorem claim1_amended :
    scan "read x;" =
      Except.ok [("read", "READ"), ("x", "IDENTIFIER"), (";", "SEMICOLON")] ∧
    parse [("read", "READ"), ("x", "IDENTIFIER"), (";", "SEMICOLON")] =
      Except.ok (Ast.program (Ast.stmt_sequence [Ast.read_stmt ("x", "IDENTIFIER")])) :=
  ⟨scan_eval _ _ rfl, rfl⟩

/-- C2: `parse` must consume the whole token stream.  (1) If `program`
returns with the cursor strictly before the end, `parse` fails with
"Unexpected token:" naming the first unconsumed token.  (2) If `parse`
succeeds, `program` returned with the cursor exactly at the end of the
stream (every token consumed).  (3) In particular the tokens of
`"read x end"` are rejected naming the `END` token. -/
theorem claim2_parse_consumes_entire_stream :
    (∀ (tokens : List Token) (a : Ast) (j : Nat),
      program tokens 0 (parseFuel tokens) = Except.ok (a, j) →
      ∀ hj : j < tokens.length,
        parse tokens = Except.error ("Unexpected token: " ++ tokenRepr tokens[j])) ∧
    (∀ (tokens : List Token) (a : Ast),
      parse tokens = Except.ok a →
      program tokens 0 (parseFuel tokens) = Except.ok (a, tokens.length)) ∧
    (scan "read x end" =
      Except.ok [("read", "READ"), ("x", "IDENTIFIER"), ("end", "END")] ∧
     parse [("read", "READ"), ("x", "IDENTIFIER"), ("end", "END")] =
      Except.error ("Unexpected token: " ++ tokenRepr ("end", "END"))) := by
  refine ⟨?_, ?_, scan_eval _ _ rfl, rfl⟩
  · intro tokens a j hok hj
    simp only [parse, hok]
    rw [dif_pos hj]
  · intro tokens a h
    simp only [parse] at h
    cases hx : program tokens 0 (parseFuel tokens) with
    | error e => rw [hx] at h; cases h
    | ok p =>
      obtain ⟨b, j⟩ := p
      rw [hx] at h
      dsimp only at h
      by_cases hj : j < tokens.length
      · rw [dif_pos hj] at h; cases h
      · rw [dif_neg hj] at h
        have hb : b = a := Except.ok.inj h
        have hle := (cursor_le (parseFuel tokens)).1 tokens 0 b j hx
        have hjl : j = tokens.length := by omega
        rw [hb, hjl]

set_option maxHeartbeats 1600000 in
/-- C3: in `stmt_sequence`, a `SEMICOLON` is consumed and, when the token
after it has kind `END` or `UNTIL`, the loop stops without requiring
another statement; hence `"repeat x := 1; until x = 1"` parses and the
repeat body holds exactly one statement. -/
theorem claim3_trailing_semicolon_before_terminator :
    (∀ (tokens : List Token) (i : Nat) (acc : List Ast) (fuel : Nat)
       (v v2 t2 : String),
      tokens[i]? = some (v, "SEMICOLON") →
      tokens[i + 1]? = some (v2, t2) →
      (t2 = "END" ∨ t2 = "UNTIL") →
      stmt_seq_loop tokens i acc (fuel + 1) =
        Except.ok (Ast.stmt_sequence acc, i + 1)) ∧
    (scan "repeat x := 1; until x = 1" =
      Except.ok [("repeat", "REPEAT"), ("x", "IDENTIFIER"), (":=", "ASSIGN"),
        ("1", "NUMBER"), (";", "SEMICOLON"), ("until", "UNTIL"),
        ("x", "IDENTIFIER"), ("=", "EQUAL"), ("1", "NUMBER")] ∧
     parse [("repeat", "REPEAT"), ("x", "IDENTIFIER"), (":=", "ASSIGN"),
        ("1", "NUMBER"), (";", "SEMICOLON"), ("until", "UNTIL"),
        ("x", "IDENTIFIER"), ("=", "EQUAL"), ("1", "NUMBER")] =
      Except.ok (Ast.program (Ast.stmt_sequence [Ast.repeat_stmt
        (Ast.stmt_sequence
          [Ast.assign_stmt ("x", "IDENTIFIER") (Ast.factor_tok ("1", "NUMBER"))])
        (Ast.exp (Ast.factor_tok ("x", "IDENTIFIER")) ("=", "EQUAL")
          (Ast.factor_tok ("1", "NUMBER")))]))) := by
  refine ⟨?_, scan_eval _ _ rfl, rfl⟩
  intro tokens i acc fuel v v2 t2 h1 h2 ht
  rcases ht with rfl | rfl <;>
    simp [stmt_seq_loop, pmatch, h1, h2, ok_bind]

/-- C4: scanning the sample program yields exactly the expected 15 tokens
in order. -/
theorem claim4_scan_sample_program :
    scan "read x; if x < 0 then x := 0 end; write x" =
      Except.ok [("read", "READ"), ("x", "IDENTIFIER"), (";", "SEMICOLON"),
        ("if", "IF"), ("x", "IDENTIFIER"), ("<", "LESSTHAN"), ("0", "NUMBER"),
        ("then", "THEN"), ("x", "IDENTIFIER"), (":=", "ASSIGN"), ("0", "NUMBER"),
        ("end", "END"), (";", "SEMICOLON"), ("write", "WRITE"),
        ("x", "IDENTIFIER")] :=
  scan_eval _ _ rfl

set_option maxHeartbeats 4000000 in
/-- C6: `simple_exp` and `term` build left-associative trees: for atomic
operands (number or identifier tokens) and two additive, respectively two
multiplicative, operator tokens, the chain `a op1 b op2 c` parses to the
tree `(a op1 b) op2 c` — each operator/operand pair wraps the previous
node as the left child. -/
theorem claim6_left_associativity :
    ∀ (a b c o1 o2 : Token) (fuel : Nat),
      (a.2 = "NUMBER" ∨ a.2 = "IDENTIFIER") →
      (b.2 = "NUMBER" ∨ b.2 = "IDENTIFIER") →
      (c.2 = "NUMBER" ∨ c.2 = "IDENTIFIER") →
      ((o1.2 = "PLUS" ∨ o1.2 = "MINUS") →
       (o2.2 = "PLUS" ∨ o2.2 = "MINUS") →
        simple_exp [a, o1, b, o2, c] 0 (fuel + 6) =
          Except.ok (Ast.simple_exp
            (Ast.simple_exp (Ast.factor_tok a) o1 (Ast.factor_tok b)) o2
            (Ast.factor_tok c), 5)) ∧
      ((o1.2 = "MULT" ∨ o1.2 = "DIV") →
       (o2.2 = "MULT" ∨ o2.2 = "DIV") →
        term [a, o1, b, o2, c] 0 (fuel + 6) =
          Except.ok (Ast.term
            (Ast.term (Ast.factor_tok a) o1 (Ast.factor_tok b)) o2
            (Ast.factor_tok c), 5)) := by
  intro a b c o1 o2 fuel ha hb hc
  obtain ⟨va, ka⟩ := a
  obtain ⟨vb, kb⟩ := b
  obtain ⟨vc, kc⟩ := c
  obtain ⟨w1, k1⟩ := o1
  obtain ⟨w2, k2⟩ := o2
  simp only at ha hb hc
  constructor <;> intro h1 h2 <;> simp only at h1 h2 <;>
    rcases ha with rfl | rfl <;> rcases hb with rfl | rfl <;>
    rcases hc with rfl | rfl <;> rcases h1 with rfl | rfl <;>
    rcases h2 with rfl | rfl <;>
    simp only [simple_exp, simple_exp_loop, term, term_loop, factor, pmatch,
      ok_bind, List.getElem?_cons_succ, List.getElem?_cons_zero,
      List.getElem?_nil, ne_eq, String.reduceEq, reduceIte, not_false_eq_true,
      and_self, reduceCtorEq, or_self, or_true, true_or, if_true, if_false,
      not_true_eq_false, and_false, false_and, and_true, true_and]


/-- Recognizer for a comparison node (the dictionaries tagged `exp`). -/
def isComparison : Ast → Bool
  | Ast.exp _ _ _ => true
  | _ => false

/-- None of `factor`, `term`, `term_loop`, `simple_exp`, `simple_exp_loop`
ever returns a comparison node: comparisons are built only by `exp`
itself (the loop functions preserve a non-comparison accumulator). -/
theorem noComparison_below_exp : ∀ fuel : Nat,
    (∀ tokens i a j, factor tokens i fuel = Except.ok (a, j) →
      isComparison a = false) ∧
    (∀ tokens i a j, term tokens i fuel = Except.ok (a, j) →
      isComparison a = false) ∧
    (∀ tokens i left a j, isComparison left = false →
      term_loop tokens i left fuel = Except.ok (a, j) → isComparison a = false) ∧
    (∀ tokens i a j, simple_exp tokens i fuel = Except.ok (a, j) →
      isComparison a = false) ∧
    (∀ tokens i left a j, isComparison left = false →
      simple_exp_loop tokens i left fuel = Except.ok (a, j) →
      isComparison a = false) := by
  intro fuel
  induction fuel with
  | zero =>
    refine ⟨?_, ?_, ?_, ?_, ?_⟩ <;>
      (intros; simp_all [factor, term, term_loop, simple_exp, simple_exp_loop])
  | succ f ih =>
    obtain ⟨ihfa, ihtm, ihtml, ihse, ihsel⟩ := ih
    refine ⟨?_, ?_, ?_, ?_, ?_⟩
    · -- factor
      intro tokens i a j h
      simp only [factor] at h
      cases hx : tokens[i]? with
      | none => rw [hx] at h; cases h
      | some p =>
        obtain ⟨v, t⟩ := p
        rw [hx] at h
        try dsimp only at h
        by_cases h1 : t = "OPENBRACKET"
        · rw [if_pos h1] at h
          simp only [bind_ok_iff, bindE_ok_iff] at h
          obtain ⟨⟨t1, i1⟩, hq1, ⟨e2, i2⟩, hq2, ⟨t3, i3⟩, hq3, hfin⟩ := h
          simp only [Except.ok.injEq, Prod.mk.injEq] at hfin
          obtain ⟨rfl, -⟩ := hfin
          rfl
        · rw [if_neg h1] at h
          by_cases h2 : t = "NUMBER"
          · rw [if_pos h2] at h
            simp only [bind_ok_iff, bindE_ok_iff] at h
            obtain ⟨⟨t1, i1⟩, hq1, hfin⟩ := h
            simp only [Except.ok.injEq, Prod.mk.injEq] at hfin
            obtain ⟨rfl, -⟩ := hfin
            rfl
          · rw [if_neg h2] at h
            by_cases h3 : t = "IDENTIFIER"
            · rw [if_pos h3] at h
              simp only [bind_ok_iff, bindE_ok_iff] at h
              obtain ⟨⟨t1, i1⟩, hq1, hfin⟩ := h
              simp only [Except.ok.injEq, Prod.mk.injEq] at hfin
              obtain ⟨rfl, -⟩ := hfin
              rfl
            · rw [if_neg h3] at h; cases h
    · -- term
      intro tokens i a j h
      simp only [term, bind_ok_iff, bindE_ok_iff] at h
      obtain ⟨⟨left, i1⟩, h1, h⟩ := h
      exact ihtml tokens i1 left a j (ihfa tokens i left i1 h1) h
    · -- term_loop
      intro tokens i left a j hleft h
      simp only [term_loop] at h
      cases hx : tokens[i]? with
      | none =>
        rw [hx] at h
        try dsimp only at h
        simp only [Except.ok.injEq, Prod.mk.injEq] at h
        obtain ⟨rfl, -⟩ := h
        exact hleft
      | some p =>
        obtain ⟨v, t⟩ := p
        rw [hx] at h
        try dsimp only at h
        by_cases ht : t = "MULT" ∨ t = "DIV"
        · rw [if_pos ht] at h
          by_cases ht2 : t = "MULT" <;>
            [rw [if_pos ht2] at h; rw [if_neg ht2] at h] <;>
          · simp only [bind_ok_iff, bindE_ok_iff] at h
            obtain ⟨⟨t1, i1⟩, h1, ⟨r2, i2⟩, h2, h⟩ := h
            exact ihtml tokens i2 (Ast.term left (v, t) r2) a j rfl h
        · rw [if_neg ht] at h
          simp only [Except.ok.injEq, Prod.mk.injEq] at h
          obtain ⟨rfl, -⟩ := h
          exact hleft
    · -- simple_exp
      intro tokens i a j h
      simp only [simple_exp, bind_ok_iff, bindE_ok_iff] at h
      obtain ⟨⟨left, i1⟩, h1, h⟩ := h
      exact ihsel tokens i1 left a j (ihtm tokens i left i1 h1) h
    · -- simple_exp_loop
      intro tokens i left a j hleft h
      simp only [simple_exp_loop] at h
      cases hx : tokens[i]? with
      | none =>
        rw [hx] at h
        try dsimp only at h
        simp only [Except.ok.injEq, Prod.mk.injEq] at h
        obtain ⟨rfl, -⟩ := h
        exact hleft
      | some p =>
        obtain ⟨v, t⟩ := p
        rw [hx] at h
        try dsimp only at h
        by_cases ht : t = "PLUS" ∨ t = "MINUS"
        · rw [if_pos ht] at h
          by_cases ht2 : t = "PLUS" <;>
            [rw [if_pos ht2] at h; rw [if_neg ht2] at h] <;>
          · simp only [bind_ok_iff, bindE_ok_iff] at h
            obtain ⟨⟨t1, i1⟩, h1, ⟨r2, i2⟩, h2, h⟩ := h
            exact ihsel tokens i2 (Ast.simple_exp left (v, t) r2) a j rfl h
        · rw [if_neg ht] at h
          simp only [Except.ok.injEq, Prod.mk.injEq] at h
          obtain ⟨rfl, -⟩ := h
          exact hleft

/-- C5: `exp` parses at most one comparison: a comparison node's operands
are never themselves comparison nodes (no chaining), and both the token
sequence of `"a < b < c"` as a whole program and the expression-context
variant `"write a < b < c"` are rejected by `parse`. -/
theorem claim5_at_most_one_comparison :
    (∀ (tokens : List Token) (i fuel : Nat) (l : Ast) (op : Token) (r : Ast)
       (j : Nat),
      exp tokens i fuel = Except.ok (Ast.exp l op r, j) →
      isComparison l = false ∧ isComparison r = false) ∧
    (scan "a < b < c" =
      Except.ok [("a", "IDENTIFIER"), ("<", "LESSTHAN"), ("b", "IDENTIFIER"),
        ("<", "LESSTHAN"), ("c", "IDENTIFIER")] ∧
     parse [("a", "IDENTIFIER"), ("<", "LESSTHAN"), ("b", "IDENTIFIER"),
        ("<", "LESSTHAN"), ("c", "IDENTIFIER")] =
      Except.error "Expected ASSIGN, but found LESSTHAN") ∧
    (scan "write a < b < c" =
      Except.ok [("write", "WRITE"), ("a", "IDENTIFIER"), ("<", "LESSTHAN"),
        ("b", "IDENTIFIER"), ("<", "LESSTHAN"), ("c", "IDENTIFIER")] ∧
     parse [("write", "WRITE"), ("a", "IDENTIFIER"), ("<", "LESSTHAN"),
        ("b", "IDENTIFIER"), ("<", "LESSTHAN"), ("c", "IDENTIFIER")] =
      Except.error ("Unexpected token: " ++ tokenRepr ("<", "LESSTHAN"))) := by
  refine ⟨?_, ⟨scan_eval _ _ rfl, rfl⟩, ⟨scan_eval _ _ rfl, rfl⟩⟩
  intro tokens i fuel l op r j h
  cases fuel with
  | zero => exact absurd h (by simp [exp])
  | succ f =>
    simp only [exp, bind_ok_iff, bindE_ok_iff] at h
    obtain ⟨⟨left, i1⟩, h1, h⟩ := h
    have hleft := (noComparison_below_exp f).2.2.2.1 tokens i left i1 h1
    cases hx : tokens[i1]? with
    | none =>
      rw [hx] at h
      try dsimp only at h
      simp only [Except.ok.injEq, Prod.mk.injEq] at h
      obtain ⟨heq, -⟩ := h
      rw [heq] at hleft
      simp [isComparison] at hleft
    | some p =>
      obtain ⟨v, t⟩ := p
      rw [hx] at h
      try dsimp only at h
      by_cases ht : t = "LESSTHAN" ∨ t = "EQUAL"
      · rw [if_pos ht] at h
        by_cases ht2 : t = "LESSTHAN" <;>
          [rw [if_pos ht2] at h; rw [if_neg ht2] at h] <;>
        · simp only [bind_ok_iff, bindE_ok_iff] at h
          obtain ⟨⟨t2, i2⟩, h2, ⟨r3, i3⟩, h3, hfin⟩ := h
          have hr := (noComparison_below_exp f).2.2.2.1 tokens i2 r3 i3 h3
          simp only [Except.ok.injEq, Prod.mk.injEq, Ast.exp.injEq] at hfin
          obtain ⟨⟨hl2, -, hr2⟩, -⟩ := hfin
          rw [hl2] at hleft
          rw [hr2] at hr
          exact ⟨hleft, hr⟩
      · rw [if_neg ht] at h
        simp only [Except.ok.injEq, Prod.mk.injEq] at h
        obtain ⟨heq, -⟩ := h
        rw [heq] at hleft
        simp [isComparison] at hleft


/-- An ASCII letter is not a whitespace character. -/
theorem letter_not_space {c : Char} (h : isLetterA c = true) :
    pyIsSpace c = false := by
  simp only [isLetterA, Bool.or_eq_true, Bool.and_eq_true, decide_eq_true_eq] at h
  simp only [pyIsSpace, Bool.or_eq_false_iff, beq_eq_false_iff_ne, ne_eq]
  omega

/-- `takeWhile` over an append whose left part wholly satisfies the
predicate and whose right part starts with a failing element. -/
theorem takeWhile_append_of_all {p : Char → Bool} :
    ∀ (l r : List Char), (∀ c ∈ l, p c = true) →
      (∀ c, r.head? = some c → p c = false) →
      (l ++ r).takeWhile p = l := by
  intro l
  induction l with
  | nil =>
    intro r _ hr
    cases r with
    | nil => rfl
    | cons c r2 =>
      simp [List.takeWhile_cons, hr c rfl]
  | cons c l2 ih =>
    intro r hl hr
    simp only [List.cons_append, List.takeWhile_cons, hl c (by simp)]
    rw [ih r (fun x hx => hl x (by simp [hx])) hr]
    simp

/-- `dropWhile` counterpart of `takeWhile_append_of_all`. -/
theorem dropWhile_append_of_all {p : Char → Bool} :
    ∀ (l r : List Char), (∀ c ∈ l, p c = true) →
      (∀ c, r.head? = some c → p c = false) →
      (l ++ r).dropWhile p = r := by
  intro l
  induction l with
  | nil =>
    intro r _ hr
    cases r with
    | nil => rfl
    | cons c r2 =>
      simp [List.dropWhile_cons, hr c rfl]
  | cons c l2 ih =>
    intro r hl hr
    simp only [List.cons_append, List.dropWhile_cons, hl c (by simp)]
    simp only [if_pos trivial]
    exact ih r (fun x hx => hl x (by simp [hx])) hr

/-- C7: keyword recognition is case-insensitive while the lexeme keeps its
original case: a maximal letter-led alphanumeric run whose case-folded
form is a key of `TOKEN_TYPES` is emitted with that keyword kind and the
original-case lexeme; concretely `"IF"` scans to `(IF, IF)` and `"If"` to
`(If, IF)`. -/
theorem claim7_case_insensitive_keywords :
    (∀ (first : Char) (tl rest : List Char) (pos : Nat) (kw : String),
      isLetterA first = true →
      (∀ c ∈ tl, isAlnum c = true) →
      (∀ c, rest.head? = some c → isAlnum c = false) →
      lookupType (String.mk ((first :: tl).map pyLower)) = some kw →
      scanGo (first :: (tl ++ rest)) pos =
        (scanGo rest (pos + (1 + tl.length))).map
          (fun ts => (String.mk (first :: tl), kw) :: ts)) ∧
    scan "IF" = Except.ok [("IF", "IF")] ∧
    scan "If" = Except.ok [("If", "IF")] := by
  refine ⟨?_, scan_eval _ _ rfl, scan_eval _ _ rfl⟩
  intro first tl rest pos kw hl htl hrest hkw
  have hsp : pyIsSpace first = false := letter_not_space hl
  have htake : (tl ++ rest).takeWhile isAlnum = tl :=
    takeWhile_append_of_all tl rest htl hrest
  have hdrop : (tl ++ rest).dropWhile isAlnum = rest :=
    dropWhile_append_of_all tl rest htl hrest
  simp only [scanGo, htake, hdrop, hsp, hl, hkw]
  simp



/-- C9: the scanner fails on the first unrecognized character, reporting
that character's index and the character itself — the reported position
indexes the offending character in the input, and that character is
rejected by every rule (not whitespace, not a letter, not a digit, not a
single-character symbol of `TOKEN_TYPES`); no token sequence is returned
(the result is an error, not a partial list).  Concretely `"x @ y"` fails
at position 2 with character `@`. -/
theorem claim9_lexical_error_first_bad_char :
    (∀ (cs : List Char) (pos : Nat) (e : LexicalError),
      scanGo cs pos = Except.error e →
      ∃ k, e.position = pos + k ∧ cs[k]? = some e.character ∧
        pyIsSpace e.character = false ∧ isLetterA e.character = false ∧
        isDigitA e.character = false ∧
        lookupType (String.mk [e.character]) = none) ∧
    scan "x @ y" = Except.error ⟨2, '@'⟩ := by
  refine ⟨?_, scan_eval _ _ rfl⟩
  intro cs pos
  induction cs, pos using scanGo.induct with
  | case1 pos => intro e h; simp [scanGo] at h
  | case2 c rest pos hsp ih =>
    intro e h
    simp only [scanGo, hsp, if_pos] at h
    obtain ⟨k, hk, hget, hprops⟩ := ih e h
    exact ⟨k + 1, by omega, by simpa using hget, hprops⟩
  | case3 c rest pos hsp hl tl ih =>
    intro e h
    have hlen2 : tl.length = (List.takeWhile isAlnum rest).length := rfl
    simp only [scanGo] at h
    rw [if_neg (by simp [hsp]), if_pos hl] at h
    have herr : scanGo (rest.dropWhile isAlnum) (pos + (1 + tl.length)) =
        Except.error e := by
      cases hx : scanGo (rest.dropWhile isAlnum) (pos + (1 + tl.length)) with
      | error e2 => rw [hx] at h; simp [Except.map] at h; rw [h]
      | ok ts => rw [hx] at h; simp [Except.map] at h
    obtain ⟨k, hk, hget, hprops⟩ := ih e herr
    refine ⟨1 + tl.length + k, by omega, ?_, hprops⟩
    have hsplit : rest = rest.takeWhile isAlnum ++ rest.dropWhile isAlnum :=
      (List.takeWhile_append_dropWhile isAlnum rest).symm
    calc (c :: rest)[1 + tl.length + k]?
        = rest[tl.length + k]? := by
          rw [List.getElem?_cons]
          have h2 : 1 + tl.length + k - 1 = tl.length + k := by omega
          rw [if_neg (by omega), h2]
      _ = (rest.takeWhile isAlnum ++ rest.dropWhile isAlnum)[tl.length + k]? := by
          rw [← hsplit]
      _ = (rest.dropWhile isAlnum)[k]? := by
          rw [List.getElem?_append_right (by omega)]
          have h3 : tl.length + k - (List.takeWhile isAlnum rest).length = k := by
            omega
          rw [h3]
      _ = some e.character := hget
  | case4 c rest pos hsp hl hd tl ih =>
    intro e h
    have hlen2 : tl.length = (List.takeWhile isDigitA rest).length := rfl
    simp only [scanGo] at h
    rw [if_neg (by simp [hsp]), if_neg (by simp [hl]), if_pos hd] at h
    have herr : scanGo (rest.dropWhile isDigitA) (pos + (1 + tl.length)) =
        Except.error e := by
      cases hx : scanGo (rest.dropWhile isDigitA) (pos + (1 + tl.length)) with
      | error e2 => rw [hx] at h; simp [Except.map] at h; rw [h]
      | ok ts => rw [hx] at h; simp [Except.map] at h
    obtain ⟨k, hk, hget, hprops⟩ := ih e herr
    refine ⟨1 + tl.length + k, by omega, ?_, hprops⟩
    have hsplit : rest = rest.takeWhile isDigitA ++ rest.dropWhile isDigitA :=
      (List.takeWhile_append_dropWhile isDigitA rest).symm
    calc (c :: rest)[1 + tl.length + k]?
        = rest[tl.length + k]? := by
          rw [List.getElem?_cons]
          have h2 : 1 + tl.length + k - 1 = tl.length + k := by omega
          rw [if_neg (by omega), h2]
      _ = (rest.takeWhile isDigitA ++ rest.dropWhile isDigitA)[tl.length + k]? := by
          rw [← hsplit]
      _ = (rest.dropWhile isDigitA)[k]? := by
          rw [List.getElem?_append_right (by omega)]
          have h3 : tl.length + k - (List.takeWhile isDigitA rest).length = k := by
            omega
          rw [h3]
      _ = some e.character := hget
  | case5 c rest pos hsp hl hd ha ih =>
    intro e h
    obtain ⟨rfl, hh⟩ := ha
    obtain ⟨rest2, rfl⟩ : ∃ rest2, rest = '=' :: rest2 := by
      cases rest with
      | nil => cases hh
      | cons x r2 => exact ⟨r2, by simpa using congrArg (fun o => o.getD ' ' :: r2) hh⟩
    simp only [scanGo] at h
    rw [if_neg (by simp [hsp]), if_neg (by simp [hl]), if_neg (by simp [hd]),
      if_pos (by simp)] at h
    have herr : scanGo (('=' :: rest2).tail) (pos + 2) = Except.error e := by
      cases hx : scanGo (('=' :: rest2).tail) (pos + 2) with
      | error e2 => rw [hx] at h; simp [Except.map] at h; rw [h]
      | ok ts => rw [hx] at h; simp [Except.map] at h
    obtain ⟨k, hk, hget, hprops⟩ := ih e herr
    refine ⟨2 + k, by omega, ?_, hprops⟩
    have h2 : (2 : Nat) + k = (k + 1) + 1 := by omega
    rw [h2, List.getElem?_cons_succ, List.getElem?_cons_succ]
    simpa using hget
  | case6 c rest pos hsp hl hd ha t hlook ih =>
    intro e h
    simp only [scanGo] at h
    rw [if_neg (by simp [hsp]), if_neg (by simp [hl]), if_neg (by simp [hd]),
      if_neg ha, hlook] at h
    have herr : scanGo rest (pos + 1) = Except.error e := by
      cases hx : scanGo rest (pos + 1) with
      | error e2 => rw [hx] at h; simp [Except.map] at h; rw [h]
      | ok ts => rw [hx] at h; simp [Except.map] at h
    obtain ⟨k, hk, hget, hprops⟩ := ih e herr
    exact ⟨k + 1, by omega, by simpa using hget, hprops⟩
  | case7 c rest pos hsp hl hd ha hlook =>
    intro e h
    simp only [scanGo] at h
    rw [if_neg (by simp [hsp]), if_neg (by simp [hl]), if_neg (by simp [hd]),
      if_neg ha, hlook] at h
    have he : (⟨pos, c⟩ : LexicalError) = e := Except.error.inj h
    subst he
    refine ⟨0, by simp, by simp, by simpa using hsp, by simpa using hl,
      by simpa using hd, hlook⟩


/-- C10: the scanner terminates on every finite input: each loop iteration
either advances the position by at least one character or aborts, so a
fuel budget of one unit per input character is never exhausted — the
instrumented loop `scanGoFuel` completes (returns `some`) and agrees with
`scanGo` whenever the fuel is at least the input length. -/
theorem claim10_scan_terminates :
    ∀ (cs : List Char) (pos fuel : Nat), cs.length ≤ fuel →
      scanGoFuel fuel cs pos = some (scanGo cs pos) :=
  fun cs pos fuel h => scanGoFuel_correct cs pos fuel h

/-- C10 witness: at the concrete input `"x := 1"` (6 characters) fuel 6
suffices. -/
theorem claim10_witness :
    scanGoFuel 6 ("x := 1".data) 0 = some (scanGo "x := 1".data 0) :=
  claim10_scan_terminates ("x := 1".data) 0 6 (by decide)


/-- `Scanner.save_tokens_to_file` writes the line `value,type` for each
token; the file is modelled as its list of lines, each line a list of
characters without the terminating newline the Python `write` appends. -/
def save_tokens_to_file (tokens : List Token) : List (List Char) :=
  tokens.map (fun p => p.1.data ++ [','] ++ p.2.data)

/-- Python `str.strip()` on ASCII whitespace, as `Parser.parse_file`
applies to each line. -/
def pyStrip (cs : List Char) : List Char :=
  ((cs.dropWhile pyIsSpace).reverse.dropWhile pyIsSpace).reverse

/-- Python `str.split(',')`: split into the (always non-empty) list of
comma-free groups. -/
def splitComma : List Char → List (List Char)
  | [] => [[]]
  | c :: rest =>
    if c = ',' then [] :: splitComma rest
    else
      match splitComma rest with
      | [] => [[c]]
      | g :: gs => (c :: g) :: gs

/-- The token loader inside `Parser.parse_file` (`parser.py` lines
245-251): strip each line, skip blank lines, split the line on commas and
unpack into the `(token_value, token_type)` pair — unpacking anything but
exactly two parts raises `ValueError` in Python, modelled as an error. -/
def parse_file_tokens : List (List Char) → Except String (List Token)
  | [] => Except.ok []
  | l :: ls =>
    let s := pyStrip l
    if s = [] then parse_file_tokens ls
    else
      match splitComma s with
      | [v, t] =>
        (parse_file_tokens ls).map (fun ts => (String.mk v, String.mk t) :: ts)
      | _ => Except.error "ValueError: line does not split into two parts"

/-- `Parser.parse_file`: load the token file, then parse the tokens. -/
def parse_file (lines : List (List Char)) : Except String Ast :=
  match parse_file_tokens lines with
  | Except.error e => Except.error e
  | Except.ok ts => parse ts

/-- A character that survives the `value,type` round trip: not the comma
separator (code 44) and not whitespace (which `strip` could remove). -/
def goodLexChar (c : Char) : Bool :=
  c.toNat != 44 && !(pyIsSpace c)

/-- A non-empty string of round-trip-safe characters. -/
def goodStr (s : String) : Bool :=
  !(s.data.isEmpty) && s.data.all goodLexChar

/-- Both components of the token survive the round trip. -/
def goodToken (p : Token) : Bool :=
  goodStr p.1 && goodStr p.2

/-- Every kind string stored in `TOKEN_TYPES` is round-trip safe. -/
theorem lookup_val_good {s t : String} (h : lookupType s = some t) :
    goodStr t = true := by
  unfold lookupType at h
  cases hf : TOKEN_TYPES.find? (fun p => p.1 == s) with
  | none => rw [hf] at h; cases h
  | some p =>
    rw [hf] at h
    have hm := List.mem_of_find?_eq_some hf
    have ht : p.2 = t := Option.some.inj h
    subst ht
    revert hm
    have : ∀ q ∈ TOKEN_TYPES, goodStr q.2 = true := by decide
    exact this p

/-- Alphanumeric characters are round-trip safe. -/
theorem alnum_goodLexChar {c : Char} (h : isAlnum c = true) :
    goodLexChar c = true := by
  simp only [isAlnum, isLetterA, isDigitA, Bool.or_eq_true, Bool.and_eq_true,
    decide_eq_true_eq] at h
  simp only [goodLexChar, pyIsSpace, Bool.and_eq_true, bne_iff_ne, ne_eq,
    Bool.not_eq_true', Bool.or_eq_false_iff, beq_eq_false_iff_ne]
  omega

/-- A single character that is a `TOKEN_TYPES` key is round-trip safe. -/
theorem single_key_good : ∀ (c : Char) (t : String),
    lookupType (String.mk [c]) = some t → goodLexChar c = true := by
  intro c t h
  unfold lookupType at h
  cases hf : TOKEN_TYPES.find? (fun p => p.1 == String.mk [c]) with
  | none => rw [hf] at h; cases h
  | some p =>
    have hm := List.mem_of_find?_eq_some hf
    have hp := List.find?_some hf
    have hpeq : p.1 = String.mk [c] := by
      exact eq_of_beq hp
    clear hf h hp
    simp only [TOKEN_TYPES, List.mem_cons, List.not_mem_nil, or_false] at hm
    rcases hm with rfl | rfl | rfl | rfl | rfl | rfl | rfl | rfl | rfl | rfl |
      rfl | rfl | rfl | rfl | rfl | rfl | rfl <;>
      (have hd := congrArg String.data hpeq; simp at hd) <;>
      (subst hd; decide)


/-- Every token the scanner emits is round-trip safe: its lexeme is a
non-empty string of non-comma, non-whitespace characters, and so is its
kind. -/
theorem scan_good : ∀ (cs : List Char) (pos : Nat) (ts : List Token),
    scanGo cs pos = Except.ok ts → ∀ p ∈ ts, goodToken p = true := by
  intro cs pos
  induction cs, pos using scanGo.induct with
  | case1 pos =>
    intro ts h p hp
    simp only [scanGo, Except.ok.injEq] at h
    subst h
    cases hp
  | case2 c rest pos hsp ih =>
    intro ts h p hp
    simp only [scanGo, hsp, if_pos] at h
    exact ih ts h p hp
  | case3 c rest pos hsp hl tl ih =>
    intro ts h p hp
    have htl : tl = rest.takeWhile isAlnum := rfl
    simp only [scanGo] at h
    rw [if_neg (by simp [hsp]), if_pos hl] at h
    cases hx : scanGo (rest.dropWhile isAlnum) (pos + (1 + tl.length)) with
    | error e => rw [hx] at h; simp [Except.map] at h
    | ok ts2 =>
      rw [hx] at h
      simp only [Except.map, Except.ok.injEq] at h
      subst h
      have hlex : goodStr (String.mk (c :: tl)) = true := by
        simp only [goodStr, Bool.and_eq_true, Bool.not_eq_true',
          List.isEmpty_eq_false, List.all_eq_true]
        refine ⟨by simp, ?_⟩
        intro x hx2
        simp only [List.mem_cons] at hx2
        rcases hx2 with rfl | hx2
        · exact alnum_goodLexChar (by simp [isAlnum, hl])
        · rw [htl] at hx2
          exact alnum_goodLexChar (List.mem_takeWhile_imp hx2)
      rcases List.mem_cons.mp hp with rfl | hp2
      · cases hlk : lookupType (String.mk ((c :: tl).map pyLower)) with
        | some t =>
          simp only [goodToken, hlk, Bool.and_eq_true]
          exact ⟨hlex, lookup_val_good hlk⟩
        | none =>
          simp only [goodToken, hlk, Bool.and_eq_true]
          exact ⟨hlex, by decide⟩
      · exact ih ts2 hx p hp2
  | case4 c rest pos hsp hl hd tl ih =>
    intro ts h p hp
    have htl : tl = rest.takeWhile isDigitA := rfl
    simp only [scanGo] at h
    rw [if_neg (by simp [hsp]), if_neg (by simp [hl]), if_pos hd] at h
    cases hx : scanGo (rest.dropWhile isDigitA) (pos + (1 + tl.length)) with
    | error e => rw [hx] at h; simp [Except.map] at h
    | ok ts2 =>
      rw [hx] at h
      simp only [Except.map, Except.ok.injEq] at h
      subst h
      rcases List.mem_cons.mp hp with rfl | hp2
      · have hlex : goodStr (String.mk (c :: tl)) = true := by
          simp only [goodStr, Bool.and_eq_true, Bool.not_eq_true',
            List.isEmpty_eq_false, List.all_eq_true]
          refine ⟨by simp, ?_⟩
          intro x hx2
          simp only [List.mem_cons] at hx2
          rcases hx2 with rfl | hx2
          · exact alnum_goodLexChar (by simp [isAlnum, hd])
          · rw [htl] at hx2
            exact alnum_goodLexChar
              (by simp [isAlnum, List.mem_takeWhile_imp hx2])
        simp only [goodToken, Bool.and_eq_true]
        exact ⟨hlex, by decide⟩
      · exact ih ts2 hx p hp2
  | case5 c rest pos hsp hl hd ha ih =>
    intro ts h p hp
    simp only [scanGo] at h
    rw [if_neg (by simp [hsp]), if_neg (by simp [hl]), if_neg (by simp [hd]),
      if_pos ha] at h
    cases hx : scanGo rest.tail (pos + 2) with
    | error e => rw [hx] at h; simp [Except.map] at h
    | ok ts2 =>
      rw [hx] at h
      simp only [Except.map, Except.ok.injEq] at h
      subst h
      rcases List.mem_cons.mp hp with rfl | hp2
      · decide
      · exact ih ts2 hx p hp2
  | case6 c rest pos hsp hl hd ha t hlook ih =>
    intro ts h p hp
    simp only [scanGo] at h
    rw [if_neg (by simp [hsp]), if_neg (by simp [hl]), if_neg (by simp [hd]),
      if_neg ha, hlook] at h
    cases hx : scanGo rest (pos + 1) with
    | error e => rw [hx] at h; simp [Except.map] at h
    | ok ts2 =>
      rw [hx] at h
      simp only [Except.map, Except.ok.injEq] at h
      subst h
      rcases List.mem_cons.mp hp with rfl | hp2
      · simp only [goodToken, Bool.and_eq_true]
        refine ⟨?_, lookup_val_good hlook⟩
        simp only [goodStr, Bool.and_eq_true, Bool.not_eq_true',
          List.isEmpty_eq_false, List.all_eq_true]
        refine ⟨by simp, ?_⟩
        intro x hx2
        simp only [List.mem_cons, List.not_mem_nil, or_false] at hx2
        subst hx2
        exact single_key_good x t hlook
      · exact ih ts2 hx p hp2
  | case7 c rest pos hsp hl hd ha hlook =>
    intro ts h p hp
    simp only [scanGo] at h
    rw [if_neg (by simp [hsp]), if_neg (by simp [hl]), if_neg (by simp [hd]),
      if_neg ha, hlook] at h
    cases h


/-- `strip` is the identity on a line without leading or trailing (indeed
any) whitespace. -/
theorem pyStrip_eq_self {l : List Char} (h : ∀ c ∈ l, pyIsSpace c = false) :
    pyStrip l = l := by
  have h1 : l.dropWhile pyIsSpace = l := by
    cases l with
    | nil => rfl
    | cons c r => simp [List.dropWhile_cons, h c (by simp)]
  have h2 : l.reverse.dropWhile pyIsSpace = l.reverse := by
    cases hr : l.reverse with
    | nil => rfl
    | cons c r =>
      have hc : c ∈ l := by
        rw [← List.mem_reverse, hr]
        simp
      simp [List.dropWhile_cons, h c hc]
  unfold pyStrip
  rw [h1, h2, List.reverse_reverse]

/-- `split(',')` on a comma-free string gives a single group. -/
theorem splitComma_no_comma : ∀ {l : List Char},
    (∀ c ∈ l, c.toNat ≠ 44) → splitComma l = [l] := by
  intro l
  induction l with
  | nil => intro _; rfl
  | cons c r ih =>
    intro h
    have hc : ¬(c = ',') := by
      intro heq
      exact h c (by simp) (by rw [heq]; rfl)
    simp only [splitComma, if_neg hc]
    rw [ih (fun x hx => h x (by simp [hx]))]

/-- `split(',')` on `value ++ "," ++ type` with comma-free halves gives
exactly the two halves. -/
theorem splitComma_pair : ∀ {v t : List Char},
    (∀ c ∈ v, c.toNat ≠ 44) → (∀ c ∈ t, c.toNat ≠ 44) →
    splitComma (v ++ ',' :: t) = [v, t] := by
  intro v
  induction v with
  | nil =>
    intro t _ ht
    simp only [List.nil_append, splitComma, if_pos rfl]
    rw [splitComma_no_comma ht, if_pos trivial]
  | cons c v2 ih =>
    intro t hv ht
    have hc : ¬(c = ',') := by
      intro heq
      exact hv c (by simp) (by rw [heq]; rfl)
    simp only [List.cons_append, splitComma, if_neg hc]
    rw [show v2.append (',' :: t) = v2 ++ ',' :: t from rfl]
    rw [ih (fun x hx => hv x (by simp [hx])) ht]

/-- Loading a saved list of round-trip-safe tokens returns them
unchanged. -/
theorem roundtrip_good : ∀ (tokens : List Token),
    (∀ p ∈ tokens, goodToken p = true) →
    parse_file_tokens (save_tokens_to_file tokens) = Except.ok tokens := by
  intro tokens
  induction tokens with
  | nil => intro _; rfl
  | cons p ts ih =>
    intro h
    have hp := h p (by simp)
    simp only [goodToken, goodStr, Bool.and_eq_true, Bool.not_eq_true',
      List.isEmpty_eq_false, List.all_eq_true, goodLexChar, bne_iff_ne,
      ne_eq] at hp
    obtain ⟨⟨hv1, hv2⟩, ht1, ht2⟩ := hp
    have hline : p.1.data ++ [','] ++ p.2.data = p.1.data ++ ',' :: p.2.data := by
      simp
    have hchars : ∀ c ∈ p.1.data ++ ',' :: p.2.data, pyIsSpace c = false := by
      intro c hc
      simp only [List.mem_append, List.mem_cons] at hc
      rcases hc with hc | rfl | hc
      · exact (hv2 c hc).2
      · rfl
      · exact (ht2 c hc).2
    simp only [save_tokens_to_file, List.map_cons, parse_file_tokens]
    rw [hline, pyStrip_eq_self hchars]
    have hne : ¬(p.1.data ++ ',' :: p.2.data = []) := by simp
    rw [if_neg hne]
    rw [splitComma_pair (fun c hc => (hv2 c hc).1) (fun c hc => (ht2 c hc).1)]
    have hsave : List.map (fun p => p.1.data ++ [','] ++ p.2.data) ts =
        save_tokens_to_file ts := rfl
    rw [hsave, ih (fun q hq => h q (by simp [hq]))]
    simp [Except.map]

/-- C8: round trip of the token textual form — serializing any token
sequence produced by `scan` to `lexeme,kind` lines and re-loading those
lines with the loader of `parse_file` yields a token sequence equal to
the original. -/
theorem claim8_token_roundtrip :
    ∀ (code : String) (tokens : List Token),
      scan code = Except.ok tokens →
      parse_file_tokens (save_tokens_to_file tokens) = Except.ok tokens := by
  intro code tokens h
  exact roundtrip_good tokens (scan_good code.data 0 tokens h)

/-- C8 witness: the concrete program `"x := 1"` round-trips. -/
theorem claim8_witness :
    parse_file_tokens (save_tokens_to_file
      [("x", "IDENTIFIER"), (":=", "ASSIGN"), ("1", "NUMBER")]) =
      Except.ok [("x", "IDENTIFIER"), (":=", "ASSIGN"), ("1", "NUMBER")] :=
  claim8_token_roundtrip "x := 1"
    [("x", "IDENTIFIER"), (":=", "ASSIGN"), ("1", "NUMBER")]
    (scan_eval _ _ rfl)


/-- C2 witness: the general trailing-token rule applied to the concrete
tokens of `"read x end"`. -/
theorem claim2_witness :
    parse [("read", "READ"), ("x", "IDENTIFIER"), ("end", "END")] =
      Except.error ("Unexpected token: " ++ tokenRepr (("end", "END"))) :=
  claim2_parse_consumes_entire_stream.1
    [("read", "READ"), ("x", "IDENTIFIER"), ("end", "END")]
    (Ast.program (Ast.stmt_sequence [Ast.read_stmt ("x", "IDENTIFIER")])) 2
    rfl (by decide)

/-- C3 witness: the loop-stop rule applied to a concrete semicolon
followed by `END`. -/
theorem claim3_witness :
    stmt_seq_loop [(";", "SEMICOLON"), ("end", "END")] 0 [] 1 =
      Except.ok (Ast.stmt_sequence [], 1) :=
  claim3_trailing_semicolon_before_terminator.1
    [(";", "SEMICOLON"), ("end", "END")] 0 [] 0 ";" "end" "END" rfl rfl
    (Or.inl rfl)

/-- C5 witness: the non-chainability rule applied to the concrete
comparison `a < b`. -/
theorem claim5_witness :
    isComparison (Ast.factor_tok ("a", "IDENTIFIER")) = false ∧
    isComparison (Ast.factor_tok ("b", "IDENTIFIER")) = false :=
  claim5_at_most_one_comparison.1
    [("a", "IDENTIFIER"), ("<", "LESSTHAN"), ("b", "IDENTIFIER")] 0 6
    (Ast.factor_tok ("a", "IDENTIFIER")) ("<", "LESSTHAN")
    (Ast.factor_tok ("b", "IDENTIFIER")) 3 rfl

/-- C6 witness: left associativity at the concrete chain `a + b - c`. -/
theorem claim6_witness :
    simple_exp [("a", "IDENTIFIER"), ("+", "PLUS"), ("b", "IDENTIFIER"),
        ("-", "MINUS"), ("c", "IDENTIFIER")] 0 6 =
      Except.ok (Ast.simple_exp
        (Ast.simple_exp (Ast.factor_tok ("a", "IDENTIFIER")) ("+", "PLUS")
          (Ast.factor_tok ("b", "IDENTIFIER"))) ("-", "MINUS")
        (Ast.factor_tok ("c", "IDENTIFIER")), 5) :=
  (claim6_left_associativity ("a", "IDENTIFIER") ("b", "IDENTIFIER")
    ("c", "IDENTIFIER") ("+", "PLUS") ("-", "MINUS") 0
    (Or.inr rfl) (Or.inr rfl) (Or.inr rfl)).1 (Or.inl rfl) (Or.inr rfl)

/-- C7 witness: the keyword rule applied to the run `If` at position 0 of
an input that ends there. -/
theorem claim7_witness :
    scanGo ('I' :: (['f'] ++ [])) 0 =
      (scanGo [] (0 + (1 + (['f'] : List Char).length))).map
        (fun ts => (String.mk ['I', 'f'], "IF") :: ts) :=
  claim7_case_insensitive_keywords.1 'I' ['f'] [] 0 "IF" (by decide)
    (by decide) (fun c hc => by cases hc) (by decide)

/-- C9 witness: the error-position rule applied to the concrete scan of
`"x @ y"`. -/
theorem claim9_witness :
    ∃ k, (⟨2, '@'⟩ : LexicalError).position = 0 + k ∧
      ("x @ y".data)[k]? = some (⟨2, '@'⟩ : LexicalError).character ∧
      pyIsSpace (⟨2, '@'⟩ : LexicalError).character = false ∧
      isLetterA (⟨2, '@'⟩ : LexicalError).character = false ∧
      isDigitA (⟨2, '@'⟩ : LexicalError).character = false ∧
      lookupType (String.mk [(⟨2, '@'⟩ : LexicalError).character]) = none :=
  claim9_lexical_error_first_bad_char.1 ("x @ y".data) 0 ⟨2, '@'⟩
    (scan_eval _ _ rfl)

end TINY
